import Mathlib

/-!
Shallow embedding of `src/Quotations.ts` (talonjs): extraction of the
non-quoted part of a plain-text email body.

Message bodies and lines are represented as `List Char`; line arrays as
`List (List Char)`; the per-line marker sequence as a `List Char` over the
alphabet `e`, `m`, `f`, `s`, `t` exactly as the source builds it.

The pattern library (`Regexp.ts`), the constants (`Constants.ts`) and the
small utilities (`Utils.ts`) are external collaborators of this module and
are not part of the source tree; each of their stand-ins below is marked
`Modelled from the spec:` in its doc comment.  All control flow, index
arithmetic and mutation below is translated from `Quotations.ts` itself,
including its JavaScript-level behaviours (a `TypeError` is modelled as
`Except.error`, the `Array.prototype.slice` argument coercion is modelled
by `jsToIntegerOrZero`, and JS function arity by `splitLinesArity`).
-/

namespace Talon

/-- Prefix test on character lists: `startsWithL cs pat` holds when `pat`
is an initial segment of `cs` (the anchored part of `Utils.matchStart`). -/
def startsWithL : List Char → List Char → Bool
  | _, [] => true
  | [], _ :: _ => false
  | c :: cs, p :: ps => c = p && startsWithL cs ps

/-- Substring occurrence test: `containsSub cs pat` holds when `pat` occurs
contiguously anywhere in `cs`. -/
def containsSub : List Char → List Char → Bool
  | [], pat => pat.isEmpty
  | c :: rest, pat => startsWithL (c :: rest) pat || containsSub rest pat

/-- Whitespace in the sense of JavaScript `String.prototype.trim`,
restricted to the characters that occur in email bodies here. -/
def isWsChar (c : Char) : Bool :=
  c = ' ' || c = '\t' || c = '\n' || c = '\r'

/-- JavaScript `String.prototype.trim`: drop whitespace from both ends. -/
def trimList (cs : List Char) : List Char :=
  ((cs.dropWhile isWsChar).reverse.dropWhile isWsChar).reverse

/-- Modelled from the spec: `Utils.splitLines` — delimiter detection
(CRLF vs LF) is an external helper; bodies are modelled with LF line
delimiters, so splitting is on the newline character. -/
def splitLines : List Char → List (List Char)
  | [] => [[]]
  | c :: rest =>
    if c = '\n' then [] :: splitLines rest
    else
      match splitLines rest with
      | l :: ls => (c :: l) :: ls
      | [] => [[c]]

/-- Join lines back with the LF delimiter (`lastMessageLines.join(delimiter)`
in `extractFromPlain`, with the modelled delimiter). -/
def joinLines : List (List Char) → List Char
  | [] => []
  | [l] => l
  | l :: ls => l ++ '\n' :: joinLines ls

/-- Modelled from the spec: `Constants.MaxLinesCount`, the fixed bound on
the number of lines processed. -/
def MaxLinesCount : Nat := 1000

/-- Modelled from the spec: `Constants.SplitterMaxLines`, the fixed maximum
number of lines a multi-line splitter template may span. -/
def SplitterMaxLines : Nat := 4

/-- Modelled from the spec and the source's call sites: `Utils.splitLines`
is invoked with a single argument (`splitLines(messageBody)` on line 38 and
`splitLines(splitterMatch[0])` on line 139), so as a JavaScript function its
`.length` (arity), read by the source expression `splitLines.length` on
line 144, is `1`. -/
def splitLinesArity : Nat := 1

/-- Modelled from the spec: `Regexp.QuotePattern` — "a line beginning with a
conventional reply-quoting marker (a leading angle-bracket style prefix)",
applied through `matchStart`, i.e. anchored at the start of the line. -/
def quotePatternTest (line : List Char) : Bool :=
  startsWithL line ['>']

/-- Modelled from the spec: `Regexp.Forward` — a forwarded-header marker at
the start of the line. -/
def forwardPatternTest (line : List Char) : Bool :=
  startsWithL line "Fwd:".data

/-- Modelled from the spec: the single-line "On <date>, <person> wrote:"
splitter template.  It matches when the text starts with `On ` and the
rest of that first line contains `wrote:`; the match (`match[0]`) is that
first line. -/
def onDateSplitterTest (src : List Char) : Option (List Char) :=
  let firstLine := src.takeWhile (fun c => c != '\n')
  if startsWithL src "On ".data && containsSub firstLine "wrote:".data then
    some firstLine
  else none

/-- Modelled from the spec: the two-line "-----Original Message-----" block
splitter template.  It matches a first line that is exactly the separator
followed by a second line starting with `From:`; the match spans both
lines. -/
def originalMessageSplitterTest (src : List Char) : Option (List Char) :=
  let marker := "-----Original Message-----".data
  if startsWithL src (marker ++ ['\n']) then
    let rest := src.drop (marker.length + 1)
    if startsWithL rest "From:".data then
      some (marker ++ '\n' :: rest.takeWhile (fun c => c != '\n'))
    else none
  else none

/-- Modelled from the spec: `Regexp.SplitterPatterns`, the ordered catalog
of splitter templates (configuration data). -/
def SplitterPatterns : List (List Char → Option (List Char)) :=
  [originalMessageSplitterTest, onDateSplitterTest]

/-- Source `isSplitter` (lines 237-243): try the splitter templates in
order and return the first match. -/
def isSplitter (src : List Char) : Option (List Char) :=
  SplitterPatterns.findSome? (fun p => p src)

/-- Modelled from the spec: `Regexp.Link`, a bracket-delimited link
occurrence `<http://...>` (the spec's "link text `<http://example.com/a>`").
On a match, returns the capture group (the target including the scheme)
and the remainder of the text after the closing bracket. -/
def linkAt : List Char → Option (List Char × List Char)
  | '<' :: 'h' :: 't' :: 't' :: 'p' :: ':' :: '/' :: '/' :: rest =>
    let mid := rest.takeWhile (fun c => c != '>')
    match rest.drop mid.length with
    | '>' :: after => some ("http://".data ++ mid, after)
    | _ => none
  | _ => none

/-- Source lines 79-80, the body of the `Link` replacement callback:
`newLineIndex` is the index of the first newline in `str.substring(offset)`
— an index relative to the link's offset (or `-1` when there is none) —
and the test then reads `str[newLineIndex + 1]` from the whole original
string with that relative index.  The link is kept iff that character is
`>`. -/
def linkKeepTest (orig : List Char) (offset : Nat) : Bool :=
  let tail := orig.drop offset
  let newLineIndex : Int :=
    if tail.contains '\n' then ((tail.takeWhile (fun c => c != '\n')).length : Int)
    else -1
  match orig[(newLineIndex + 1).toNat]? with
  | some c => c = '>'
  | none => false

/-- Source line 78: replace every link occurrence, keeping it exactly when
`linkKeepTest` holds at its offset in the original string, and otherwise
wrapping the capture group in `@@` sentinels.  The fuel is the length of
the text; every step consumes at least one character, so it never runs
out. -/
def replaceLinksAux (orig : List Char) : Nat → Nat → List Char → List Char
  | 0, _, cs => cs
  | _ + 1, _, [] => []
  | fuel + 1, offset, c :: rest =>
    match linkAt (c :: rest) with
    | some (inner, after) =>
      if linkKeepTest orig offset then
        ('<' :: inner ++ ['>']) ++ replaceLinksAux orig fuel (offset + inner.length + 2) after
      else
        ('@' :: '@' :: inner ++ ['@', '@']) ++ replaceLinksAux orig fuel (offset + inner.length + 2) after
    | none => c :: replaceLinksAux orig fuel (offset + 1) rest

/-- Link normalization pass of `preprocess` (source lines 78-81). -/
def replaceLinks (cs : List Char) : List Char :=
  replaceLinksAux cs cs.length 0 cs

/-- Modelled from the spec: `Regexp.OnDateSomebodyWrote` — an occurrence of
the inline splitter phrase starts where the text begins with `On ` and the
remainder of that line contains `wrote:`. -/
def onDateStartTest (tail : List Char) : Bool :=
  startsWithL tail "On ".data &&
    containsSub (tail.takeWhile (fun c => c != '\n')) "wrote:".data

/-- Offset of the first occurrence of the inline splitter phrase, if any
(the source's non-global `replace` touches only the first occurrence). -/
def findOnDateAux : List Char → Nat → Option Nat
  | [], _ => none
  | c :: rest, p =>
    if onDateStartTest (c :: rest) then some p else findOnDateAux rest (p + 1)

/-- Source `preprocess` (lines 75-98), for a plain-text body with the
modelled LF delimiter: normalize links, then insert a delimiter before an
inline splitter phrase when it is preceded by some character other than a
newline (`offset > 0 && str[offset - 1] !== "\n"`).  The source extracts
the offset from the callback's argument list by keeping the numeric
argument, which for these patterns is the match offset. -/
def preprocess (messageBody : List Char) : List Char :=
  let b := replaceLinks messageBody
  match findOnDateAux b 0 with
  | some p =>
    if 0 < p ∧ b[p - 1]? ≠ some '\n' then b.take p ++ '\n' :: b.drop p
    else b
  | none => b

/-- Write `count` consecutive `s` markers starting at `start` (the loop on
source lines 140-141). -/
def setRun : List Char → Nat → Nat → List Char
  | ms, _, 0 => ms
  | ms, i, count + 1 => setRun (ms.set i 's') (i + 1) count

/-- Source `markMessageLines` loop (lines 117-149).  Each iteration marks
the current line as `e`, `m`, `f` or `t`, or, on a splitter template match,
marks one `s` per matched line; it then advances the index by
`splitLines.length - 1` — the arity of the `splitLines` function, not the
number of matched lines — plus the unconditional `index++`.  The fuel is
the number of lines; the index grows by at least one per step, so the fuel
never runs out. -/
def markLoopAux : Nat → List (List Char) → List Char → Nat → List Char
  | 0, _, markers, _ => markers
  | fuel + 1, lines, markers, index =>
    if index < lines.length then
      let line := lines.getD index []
      if line.isEmpty then
        markLoopAux fuel lines (markers.set index 'e') (index + 1)
      else if quotePatternTest line then
        markLoopAux fuel lines (markers.set index 'm') (index + 1)
      else if forwardPatternTest line then
        markLoopAux fuel lines (markers.set index 'f') (index + 1)
      else
        match isSplitter (joinLines ((lines.drop index).take SplitterMaxLines)) with
        | none => markLoopAux fuel lines (markers.set index 't') (index + 1)
        | some m =>
          markLoopAux fuel lines (setRun markers index (splitLines m).length)
            (index + (splitLinesArity - 1) + 1)
    else markers

/-- Source `markMessageLines` (lines 113-152): one marker per line, joined
into a single sequence.  The initial array slots (JS `new Array(n)`) are
modelled by a placeholder character; every slot is overwritten before the
loop terminates. -/
def markMessageLines (lines : List (List Char)) : List Char :=
  markLoopAux lines.length lines (List.replicate lines.length '?') 0

/-- Match of `/[te]*f/` anchored at the start of the marker sequence
(source line 179 via `matchStart`): the first character outside `{t, e}`
exists and is `f`. -/
def matchStartTEF (ms : List Char) : Bool :=
  match ms.dropWhile (fun c => c == 't' || c == 'e') with
  | 'f' :: _ => true
  | _ => false

/-- Scanner for the part of `/(m)e*((?:t+e*)+)m/` after its leading `m`:
over `{t, e}` characters, a closing `m` is reached and at least one `t`
was seen before it. -/
def inlineAfterM : List Char → Bool → Bool
  | [], _ => false
  | c :: rest, seenT =>
    if c = 'm' then seenT
    else if c = 't' then inlineAfterM rest true
    else if c = 'e' then inlineAfterM rest seenT
    else false

/-- Existence of a match of the inline-reply pattern `/(m)e*((?:t+e*)+)m/`
(source line 186): two `m` markers with only `{t, e}` strictly between
them, at least one of which is `t`.  The regex shape `e*(t+e*)+` is
exactly the set of `{t, e}` strings containing a `t`. -/
def inlineReplyExists : List Char → Bool
  | [] => false
  | c :: rest =>
    (if c = 'm' then inlineAfterM rest false else false) || inlineReplyExists rest

/-- Scanner for `markers.match("(se*)+((t|f)+e*)+")` (source line 197),
returning the content of capture group 3 — the last `t` or `f` consumed —
for the leftmost match, or `none`.  `(se*)+` is the set of `{s, e}` strings
starting with `s`, and `((t|f)+e*)+` the set of `{t, f, e}` strings
starting with `t` or `f`; with greedy matching, a match starting at an `s`
succeeds exactly when the maximal `{s, e}` run from it is followed by a
`t` or `f`, and then extends over the maximal `{t, f, e}` run. -/
def trailingQuoteFrom : List Char → Option Char
  | [] => none
  | c :: rest =>
    if c = 's' then
      let run := (c :: rest).takeWhile fun x => x == 's' || x == 'e'
      match (c :: rest).drop run.length with
      | d :: after =>
        if d = 't' ∨ d = 'f' then
          let body := (d :: after).takeWhile fun x => x == 't' || x == 'f' || x == 'e'
          some ((body.filter fun x => x == 't' || x == 'f').getLastD d)
        else trailingQuoteFrom rest
      | [] => trailingQuoteFrom rest
    else trailingQuoteFrom rest

/-- Occurrence test for `/(me*){3}/` (source line 176): three `m` markers
separated only by `e` markers, i.e. `mmm` occurs contiguously once all `e`
markers are erased. -/
def hasMMM : List Char → Bool
  | 'm' :: 'm' :: 'm' :: _ => true
  | _ :: rest => hasMMM rest
  | [] => false

/-- Occurrence test for `/(me*){3}/` on the marker sequence. -/
def hasThreeQuoteRuns (ms : List Char) : Bool :=
  hasMMM (ms.filter (fun c => c != 'e'))

/-- Spurious-marker normalization as the specification describes it taking
effect: when the sequence has no `s` marker and no three quote runs, the
`m` markers are not trusted and become `t`.  The source (lines 176-177)
computes `markers.replace("m", "t")` under the same guard but discards the
returned string (JavaScript strings are immutable), so `processMarkedLines`
below proceeds with the original sequence. -/
def normalizeMarkers (ms : List Char) : List Char :=
  if ms.contains 's' || hasThreeQuoteRuns ms then ms
  else ms.map (fun c => if c = 'm' then 't' else c)

/-- JavaScript values that the result record fields take in the source:
`firstDeletedLine` is declared a number but is assigned the capture-group
string `quotation[3]` in the trailing-quote branch. -/
inductive JsVal where
  | num (n : Int)
  | str (s : List Char)
deriving DecidableEq

/-- Decimal digits to a number, `none` when the characters are not all
digits or the list is empty. -/
def digitsToNat? (cs : List Char) : Option Nat :=
  if cs.isEmpty then none
  else if cs.all (fun c => c.isDigit) then
    some (cs.foldl (fun a c => a * 10 + (c.toNat - 48)) 0)
  else none

/-- JavaScript `ToNumber` on the strings that can reach the slice argument
here: an optionally signed decimal numeral (after trimming) converts, and
anything else is `NaN`, modelled as `none`. -/
def jsStringToInt? (s : List Char) : Option Int :=
  match trimList s with
  | '-' :: rest => (digitsToNat? rest).map (fun n => -(n : Int))
  | t => (digitsToNat? t).map (fun n => (n : Int))

/-- JavaScript `ToIntegerOrInfinity` as used by `Array.prototype.slice`:
a number passes through and a string is converted with `ToNumber`, with
`NaN` mapped to `0`. -/
def jsToIntegerOrZero : JsVal → Int
  | .num n => n
  | .str s => (jsStringToInt? s).getD 0

/-- Clamped end index of `Array.prototype.slice(0, e)`: negative `e`
counts from the end of the array, nonnegative `e` is clamped to the
length. -/
def jsSliceEndIndex (len : Nat) (e : Int) : Nat :=
  if e < 0 then len - (-e).toNat else min e.toNat len

/-- JavaScript `lines.slice(0, e)` for an `Int` end index. -/
def jsSliceZeroTo (l : List (List Char)) (e : Int) : List (List Char) :=
  l.take (jsSliceEndIndex l.length e)

/-- The JavaScript exception reachable in `processMarkedLines`:
`lines[inlineReplyMatch[3]]` is `undefined` (the regex has two capture
groups, so group 3 is `undefined`), and calling `.match` on it raises a
`TypeError`. -/
inductive TalonError where
  | typeError
deriving DecidableEq

/-- Result record of `processMarkedLines` (source lines 162-173). -/
structure PMLResult where
  lastMessageLines : List (List Char)
  wereLinesDeleted : Bool
  firstDeletedLine : JsVal
  lastDeletedLine : Int
deriving DecidableEq

/-- Modelled from the spec: the two composite quotation-block patterns
(`Regexp.Quotation` and `Regexp.EmptyQuotation`) are configuration data in
the pattern library.  A match is summarized by the pair the source
computes from it on lines 211-212: the captured block's start
`quotation.index + quotation[0].indexOf(quotation[1])` and the captured
block's length `quotation[1].length`, both nonnegative for a genuine
regex match. -/
structure QuotationLib where
  quotation : List Char → Option (Nat × Nat)
  emptyQuotation : List Char → Option (Nat × Nat)

/-- Modelled from the spec: the pattern-library configuration in which
neither composite quotation pattern matches any sequence. -/
def emptyQuotationLib : QuotationLib :=
  ⟨fun _ => none, fun _ => none⟩

/-- Source `processMarkedLines` (lines 162-222).  Branches in source
order: the discarded spurious-marker normalization (lines 176-177, no
effect — see `normalizeMarkers`); the leading-forward test; the
inline-reply loop, whose body always evaluates `lines[undefined].match`
and therefore raises a `TypeError` whenever the pattern matches at all;
the trailing-quote cut, whose `slice(0, quotation[3])` end argument is the
capture-group string (`t` or `f`), coerced through `NaN` to `0`; and the
composite quotation patterns. -/
def processMarkedLines (lib : QuotationLib) (lines : List (List Char))
    (markers : List Char) : Except TalonError PMLResult :=
  let result : PMLResult := ⟨lines, false, JsVal.num (-1), -1⟩
  if matchStartTEF markers then .ok result
  else if inlineReplyExists markers then .error TalonError.typeError
  else
    match trailingQuoteFrom markers with
    | some g3 =>
      .ok ⟨jsSliceZeroTo lines (jsToIntegerOrZero (JsVal.str [g3])), true,
        JsVal.str [g3], (lines.length : Int)⟩
    | none =>
      match (lib.quotation markers).orElse (fun _ => lib.emptyQuotation markers) with
      | some (gs, gl) =>
        .ok ⟨lines.take gs ++ lines.drop (gs + gl), true,
          JsVal.num (gs : Int), ((gs : Int) + (gl : Int))⟩
      | none => .ok result

/-- Locate the first `@@` pair in the text: on success, the characters
before it and the characters after it. -/
def findAtAt : List Char → Option (List Char × List Char)
  | [] => none
  | [_] => none
  | c :: d :: rest =>
    if c = '@' ∧ d = '@' then some ([], rest)
    else
      match findAtAt (d :: rest) with
      | some (a, b) => some (c :: a, b)
      | none => none

/-- Modelled from the spec: the `Regexp.NormalizedLink` replacement of
`postProcess` — each sentinel-wrapped `@@...@@` span is restored to its
bracketed `<...>` form, pairing each opening `@@` with the nearest closing
`@@`.  The fuel is the length of the text; every step consumes at least
one character. -/
def restoreLinksAux : Nat → List Char → List Char
  | 0, cs => cs
  | _ + 1, [] => []
  | _ + 1, [c] => [c]
  | fuel + 1, c :: d :: rest₂ =>
    if c = '@' ∧ d = '@' then
      match findAtAt rest₂ with
      | some (inner, rest₃) => '<' :: (inner ++ '>' :: restoreLinksAux fuel rest₃)
      | none => c :: d :: restoreLinksAux fuel rest₂
    else c :: restoreLinksAux fuel (d :: rest₂)

/-- Restore all sentinel-wrapped links. -/
def restoreLinks (cs : List Char) : List Char :=
  restoreLinksAux cs.length cs

/-- Source `postProcess` (lines 228-230): convert link sentinels back to
brackets and trim the result. -/
def postProcess (messageBody : List Char) : List Char :=
  trimList (restoreLinks messageBody)

/-- Source `extractFromPlain` (lines 32-48), with the delimiter modelled
as LF: preprocess, split and bound the lines, mark them, process the
marked lines, then join, restore links and trim.  The `TypeError` of
`processMarkedLines` propagates. -/
def extractFromPlain (lib : QuotationLib) (messageBody : List Char) :
    Except TalonError (List Char) :=
  let pre := preprocess messageBody
  let lines := (splitLines pre).take MaxLinesCount
  let markers := markMessageLines lines
  (processMarkedLines lib lines markers).map
    (fun r => postProcess (joinLines r.lastMessageLines))

/-- Source `extractFromHtml` (lines 55-57): a pass-through. -/
def extractFromHtml (messageBody : List Char) : List Char :=
  messageBody

/-- The MIME content types the dispatcher distinguishes. -/
inductive ContentType where
  | textPlain | textHtml | other
deriving DecidableEq

/-- Source `extractFrom` (lines 15-25): dispatch on the content type. -/
def extractFrom (lib : QuotationLib) (messageBody : List Char)
    (contentType : ContentType) : Except TalonError (List Char) :=
  match contentType with
  | .textPlain => extractFromPlain lib messageBody
  | .textHtml => .ok (extractFromHtml messageBody)
  | .other => .ok messageBody

end Talon

namespace Talon

theorem splitLines_ne_nil (cs : List Char) : splitLines cs ≠ [] := by
  cases cs with
  | nil => simp [splitLines]
  | cons c rest =>
    simp only [splitLines]
    split
    · simp
    · cases h : splitLines rest with
      | nil => simp
      | cons l ls => simp [h]

theorem joinLines_splitLines (cs : List Char) : joinLines (splitLines cs) = cs := by
  induction cs with
  | nil => rfl
  | cons c rest ih =>
    simp only [splitLines]
    split
    · next hc =>
      subst hc
      cases hs : splitLines rest with
      | nil => exact absurd hs (splitLines_ne_nil rest)
      | cons l ls =>
        rw [hs] at ih
        simp only [joinLines]
        rw [ih]
        simp
    · next hc =>
      cases hs : splitLines rest with
      | nil => exact absurd hs (splitLines_ne_nil rest)
      | cons l ls =>
        rw [hs] at ih
        cases ls with
        | nil => simp only [joinLines] at ih ⊢; rw [ih]
        | cons l₂ ls₂ =>
          simp only [joinLines] at ih ⊢
          rw [List.cons_append, ih]

theorem take_eq_take_min (l : List (List Char)) (n : Nat) :
    l.take n = l.take (min n l.length) := by
  rcases Nat.le_total n l.length with h | h
  · rw [min_eq_left h]
  · rw [min_eq_right h, List.take_of_length_le h, List.take_length]

theorem take_append_drop_sublist (l : List (List Char)) {i j : Nat} (hij : i ≤ j) :
    List.Sublist (l.take i ++ l.drop j) l := by
  have h1 : List.Sublist (l.take i) (l.take j) := by
    have heq : l.take i = (l.take j).take i := by
      rw [List.take_take, min_eq_left hij]
    rw [heq]
    exact List.take_sublist ..
  have h2 := h1.append (List.Sublist.refl (l.drop j))
  rwa [List.take_append_drop] at h2

theorem joinLines_length_le_cons (a : List Char) (l : List (List Char)) :
    (joinLines l).length ≤ (joinLines (a :: l)).length := by
  cases l with
  | nil => simp [joinLines]
  | cons b bs =>
    simp only [joinLines, List.length_append, List.length_cons]
    omega

theorem length_le_joinLines_cons (a : List Char) (l : List (List Char)) :
    a.length ≤ (joinLines (a :: l)).length := by
  cases l with
  | nil => simp [joinLines]
  | cons b bs =>
    simp only [joinLines, List.length_append, List.length_cons]
    omega

theorem joinLines_length_mono {s l : List (List Char)} (h : List.Sublist s l) :
    (joinLines s).length ≤ (joinLines l).length := by
  induction h with
  | slnil => exact Nat.le_refl _
  | @cons l₁ l₂ a h ih => exact Nat.le_trans ih (joinLines_length_le_cons a _)
  | @cons₂ l₁ l₂ a h ih =>
    cases l₁ with
    | nil => exact length_le_joinLines_cons a l₂
    | cons x xs =>
      cases l₂ with
      | nil => exact absurd (List.sublist_nil.mp h) (by simp)
      | cons y ys =>
        simp only [joinLines, List.length_append, List.length_cons]
        omega

theorem dropWhile_length_le (p : Char → Bool) (l : List Char) :
    (l.dropWhile p).length ≤ l.length := by
  induction l with
  | nil => simp
  | cons c cs ih =>
    cases hp : p c with
    | true => simp [List.dropWhile, hp]; omega
    | false => simp [List.dropWhile, hp]

theorem trimList_length_le (cs : List Char) : (trimList cs).length ≤ cs.length := by
  unfold trimList
  calc (((cs.dropWhile isWsChar).reverse.dropWhile isWsChar).reverse).length
      = ((cs.dropWhile isWsChar).reverse.dropWhile isWsChar).length := List.length_reverse ..
    _ ≤ (cs.dropWhile isWsChar).reverse.length := dropWhile_length_le ..
    _ = (cs.dropWhile isWsChar).length := List.length_reverse ..
    _ ≤ cs.length := dropWhile_length_le ..

theorem findAtAt_spec : ∀ (cs a b : List Char), findAtAt cs = some (a, b) →
    a.length + 2 + b.length = cs.length := by
  intro cs
  induction cs with
  | nil => intro a b h; simp [findAtAt] at h
  | cons c rest ih =>
    intro a b h
    cases rest with
    | nil => simp [findAtAt] at h
    | cons d rest₂ =>
      simp only [findAtAt] at h
      split at h
      · injection h with h
        injection h with h1 h2
        subst h1; subst h2
        simp only [List.length_nil, List.length_cons]
        omega
      · cases hf : findAtAt (d :: rest₂) with
        | none => rw [hf] at h; simp at h
        | some p =>
          obtain ⟨a', b'⟩ := p
          rw [hf] at h
          simp only [Option.some.injEq, Prod.mk.injEq] at h
          obtain ⟨h1, h2⟩ := h
          subst h1; subst h2
          have hrec := ih a' b' hf
          simp only [List.length_cons] at hrec ⊢
          omega

theorem restoreLinksAux_length_le : ∀ (fuel : Nat) (cs : List Char),
    (restoreLinksAux fuel cs).length ≤ cs.length := by
  intro fuel
  induction fuel with
  | zero => intro cs; simp [restoreLinksAux]
  | succ f ih =>
    intro cs
    cases cs with
    | nil => simp [restoreLinksAux]
    | cons c rest =>
      cases rest with
      | nil => simp [restoreLinksAux]
      | cons d rest₂ =>
        simp only [restoreLinksAux]
        by_cases hcd : c = '@' ∧ d = '@'
        · rw [if_pos hcd]
          cases hf : findAtAt rest₂ with
          | none =>
            have h2 := ih rest₂
            simp only [List.length_cons]
            omega
          | some p =>
            obtain ⟨inner, rest₃⟩ := p
            have h1 := findAtAt_spec rest₂ inner rest₃ hf
            have h2 := ih rest₃
            simp only [List.length_cons, List.length_append]
            omega
        · rw [if_neg hcd]
          have h2 := ih (d :: rest₂)
          simp only [List.length_cons] at h2 ⊢
          omega

theorem restoreLinks_length_le (cs : List Char) : (restoreLinks cs).length ≤ cs.length :=
  restoreLinksAux_length_le cs.length cs

theorem postProcess_length_le (cs : List Char) : (postProcess cs).length ≤ cs.length :=
  Nat.le_trans (trimList_length_le (restoreLinks cs)) (restoreLinks_length_le cs)

theorem processMarkedLines_shape (lib : QuotationLib) (lines : List (List Char))
    (markers : List Char) (r : PMLResult)
    (h : processMarkedLines lib lines markers = .ok r) :
    ∃ i j, i ≤ j ∧ r.lastMessageLines = lines.take i ++ lines.drop j := by
  simp only [processMarkedLines] at h
  split at h
  · injection h with h; subst h
    exact ⟨0, 0, Nat.le_refl 0, by simp⟩
  · split at h
    · exact absurd h (by simp)
    · split at h
      · next g3 heq =>
        injection h with h; subst h
        simp only [jsSliceZeroTo]
        refine ⟨min (jsSliceEndIndex lines.length (jsToIntegerOrZero (JsVal.str [g3])))
          lines.length, lines.length, Nat.min_le_right .., ?_⟩
        rw [List.drop_length, List.append_nil, ← take_eq_take_min]
      · next heq =>
        split at h
        · next gs gl heq2 =>
          injection h with h; subst h
          exact ⟨gs, gs + gl, Nat.le_add_right .., rfl⟩
        · next heq2 =>
          injection h with h; subst h
          exact ⟨0, 0, Nat.le_refl 0, by simp⟩

theorem pml_join_length_le (lib : QuotationLib) (L : List (List Char)) (M : List Char)
    (r : PMLResult) (h : processMarkedLines lib L M = .ok r) :
    (postProcess (joinLines r.lastMessageLines)).length ≤ (joinLines L).length := by
  obtain ⟨i, j, hij, hs⟩ := processMarkedLines_shape lib L M r h
  calc (postProcess (joinLines r.lastMessageLines)).length
      ≤ (joinLines r.lastMessageLines).length := postProcess_length_le _
    _ ≤ (joinLines L).length := by
        rw [hs]; exact joinLines_length_mono (take_append_drop_sublist L hij)

end Talon

namespace Talon

/-- C1: the claim says a genuine inline reply (quote line, text line, quote
line) aborts deletion and returns the original lines unchanged.  The code
instead raises a `TypeError` on exactly the claim's example input: the
inline-reply loop body reads `inlineReplyMatch[3]` from a regex with only
two capture groups, so it evaluates `lines[undefined].match(...)`.  The
error is raised before the composite quotation patterns are consulted. -/
theorem talon_c1_inline_reply_raises_type_error :
    extractFromPlain emptyQuotationLib "> quoted A\nmy reply\n> quoted B".data
      = .error TalonError.typeError := rfl

/-- C2: the claim says extraction never raises on any input.  Dispatching
the plain-text body below through `extractFrom` reaches the inline-reply
loop of `processMarkedLines` (marker sequence `mtm`), whose body raises a
`TypeError` by calling `.match` on `lines[undefined]`. -/
theorem talon_c2_extraction_raises_type_error :
    extractFrom emptyQuotationLib "> alpha\nhello there\n> beta".data ContentType.textPlain
      = .error TalonError.typeError := rfl

/-- C3: the claim says the trailing-quote cut keeps every line before the
trailing group (here the reply line and, on either reading, at least
`"reply"`).  On the marker sequence `tstt` the code instead returns the
empty message: `lines.slice(0, quotation[3])` uses the capture-group
string `"t"` as the slice end, which coerces through `NaN` to `0`, so all
lines are deleted. -/
theorem talon_c3_trailing_cut_deletes_all_lines :
    extractFromPlain emptyQuotationLib
      "reply\nOn 2012-01-01, Alice wrote:\nold text\nmore old text".data = .ok [] := rfl

/-- C4: the claim says a k-line splitter match marks all k lines `s` and
advances the scan by k so none is reclassified.  On a two-line splitter
the code marks both lines `s` but advances by `splitLines.length - 1 + 1`
= 1 (the arity of the `splitLines` function), so the second line is
revisited and reclassified to `t`: the final sequence is `st`, not
`ss`. -/
theorem talon_c4_splitter_second_line_reclassified :
    markMessageLines ["-----Original Message-----".data, "From: Alice".data]
      = "st".data := rfl

/-- C5: the claim says the spurious-marker normalization converts isolated
`m` markers to `t` before the later heuristics run.  On marker sequence
`mtm` (no splitter, fewer than three quote runs) the normalized sequence
is `ttt`, on which the heuristics delete nothing and return the lines
unchanged; the code, however, discards the result of
`markers.replace("m", "t")` and runs the heuristics on the original `mtm`,
where the inline-reply loop raises a `TypeError`. -/
theorem talon_c5_normalization_has_no_effect :
    normalizeMarkers "mtm".data = "ttt".data
    ∧ processMarkedLines emptyQuotationLib ["> a".data, "b".data, "> c".data]
        (normalizeMarkers "mtm".data)
        = .ok ⟨["> a".data, "b".data, "> c".data], false, JsVal.num (-1), -1⟩
    ∧ processMarkedLines emptyQuotationLib ["> a".data, "b".data, "> c".data] "mtm".data
        = .error TalonError.typeError :=
  ⟨rfl, rfl, rfl⟩

/-- C6: the claim says a link is left untouched exactly when the character
immediately following the end of the link's line is `>`.  In the body
below that character (index 14, the line after the link) is `>`, so the
claim requires the link to be kept; the code instead checks
`str[newLineIndex + 1]` with `newLineIndex` relative to the link's offset
(index 11, the character `x`) and replaces the link with sentinels. -/
theorem talon_c6_link_keep_check_uses_wrong_index :
    preprocess "ab\n<http://x>\n>q".data = "ab\n@@http://x@@\n>q".data := rfl

/-- C7: whenever the quotation detector returns a result, the surviving
lines are a prefix of the original lines followed by a suffix of the
original lines — at most one contiguous range is removed and order is
preserved.  This holds for every pattern-library configuration, every
lines array and every marker sequence. -/
theorem talon_c7_surviving_lines_are_outer_slices (lib : QuotationLib)
    (lines : List (List Char)) (markers : List Char) (r : PMLResult)
    (h : processMarkedLines lib lines markers = .ok r) :
    ∃ i j, i ≤ j ∧ r.lastMessageLines = lines.take i ++ lines.drop j :=
  processMarkedLines_shape lib lines markers r h

/-- Witness for C7 at a concrete input: two text lines, no deletion. -/
theorem talon_c7_witness :
    ∃ i j, i ≤ j ∧
      (PMLResult.mk [['h'], ['i']] false (JsVal.num (-1)) (-1)).lastMessageLines
        = [['h'], ['i']].take i ++ [['h'], ['i']].drop j :=
  talon_c7_surviving_lines_are_outer_slices emptyQuotationLib [['h'], ['i']] ['t', 't']
    (PMLResult.mk [['h'], ['i']] false (JsVal.num (-1)) (-1)) rfl

/-- C8 (amended): whenever extraction returns, its output is at most as
long as the preprocessed body — detection only removes lines and
postprocessing only shortens; the raw input, however, can be exceeded by
the delimiter that preprocessing inserts before an inline splitter phrase
(see the counterexample). -/
theorem talon_c8_output_not_longer_than_preprocessed (lib : QuotationLib)
    (body out : List Char) (h : extractFromPlain lib body = .ok out) :
    out.length ≤ (preprocess body).length := by
  simp only [extractFromPlain] at h
  cases hp : processMarkedLines lib ((splitLines (preprocess body)).take MaxLinesCount)
      (markMessageLines ((splitLines (preprocess body)).take MaxLinesCount)) with
  | error e => rw [hp] at h; simp [Except.map] at h
  | ok r =>
    rw [hp] at h
    simp only [Except.map] at h
    injection h with h
    subst h
    calc (postProcess (joinLines r.lastMessageLines)).length
        ≤ (joinLines ((splitLines (preprocess body)).take MaxLinesCount)).length :=
          pml_join_length_le lib _ _ r hp
      _ ≤ (joinLines (splitLines (preprocess body))).length :=
          joinLines_length_mono (List.take_sublist ..)
      _ = (preprocess body).length := by rw [joinLines_splitLines]

/-- Witness for C8 at a concrete input. -/
theorem talon_c8_witness :
    extractFromPlain emptyQuotationLib "hi".data = .ok "hi".data
    ∧ ("hi".data).length ≤ (preprocess "hi".data).length :=
  ⟨rfl, talon_c8_output_not_longer_than_preprocessed emptyQuotationLib
    "hi".data "hi".data rfl⟩

/-- C8 counterexample: the claim as stated — output never longer than the
input — fails.  The inline splitter phrase is preceded by the character
`x` on the same line, so preprocessing inserts a line delimiter before it;
no heuristic then deletes anything, and the returned body is one character
longer than the input. -/
theorem talon_c8_counterexample :
    extractFromPlain emptyQuotationLib "xOn 2012-01-01, Alice wrote:".data
      = .ok "x\nOn 2012-01-01, Alice wrote:".data
    ∧ ("xOn 2012-01-01, Alice wrote:".data).length
        < ("x\nOn 2012-01-01, Alice wrote:".data).length :=
  ⟨rfl, by decide⟩

/-- C9: the claim says extraction is idempotent.  On the body below the
first run only trims the leading spaces, turning the first line into a
quote-prefixed line; re-running extraction on that output produces marker
sequence `mtm` and raises a `TypeError` in the inline-reply loop instead
of returning the output unchanged. -/
theorem talon_c9_not_idempotent :
    extractFromPlain emptyQuotationLib "  > a\nb\n> c".data = .ok "> a\nb\n> c".data
    ∧ extractFromPlain emptyQuotationLib "> a\nb\n> c".data
        = .error TalonError.typeError :=
  ⟨rfl, rfl⟩

/-- C10: whenever `processMarkedLines` returns with `wereLinesDeleted =
false`, the result is exactly the initial record: the unmodified lines and
both deletion bounds `-1`.  No heuristic partially mutates the result
before a bail-out, for every pattern-library configuration. -/
theorem talon_c10_no_deletion_leaves_result_initial (lib : QuotationLib)
    (lines : List (List Char)) (markers : List Char) (r : PMLResult)
    (h : processMarkedLines lib lines markers = .ok r)
    (hw : r.wereLinesDeleted = false) :
    r.lastMessageLines = lines ∧ r.firstDeletedLine = JsVal.num (-1)
      ∧ r.lastDeletedLine = -1 := by
  simp only [processMarkedLines] at h
  split at h
  · injection h with h; subst h
    exact ⟨rfl, rfl, rfl⟩
  · split at h
    · exact absurd h (by simp)
    · split at h
      · next g3 heq =>
        injection h with h; subst h
        simp at hw
      · next heq =>
        split at h
        · next gs gl heq2 =>
          injection h with h; subst h
          simp at hw
        · next heq2 =>
          injection h with h; subst h
          exact ⟨rfl, rfl, rfl⟩

/-- Witness for C10 at a concrete input: a single empty line, no
deletion. -/
theorem talon_c10_witness :
    (PMLResult.mk [['y']] false (JsVal.num (-1)) (-1)).lastMessageLines = [['y']]
    ∧ (PMLResult.mk [['y']] false (JsVal.num (-1)) (-1)).firstDeletedLine = JsVal.num (-1)
    ∧ (PMLResult.mk [['y']] false (JsVal.num (-1)) (-1)).lastDeletedLine = -1 :=
  talon_c10_no_deletion_leaves_result_initial emptyQuotationLib [['y']] ['e']
    (PMLResult.mk [['y']] false (JsVal.num (-1)) (-1)) rfl rfl

end Talon
